import Mathlib

/-!
Verification development for the lucet memory-region runtime and the
lucetc CPU-feature configuration.

Part 1 embeds `src/lucetc/src/compiler/cpu_features.rs` shallowly:
`TargetCpu`, `SpecificFeature`, the per-CPU feature lists, and the
feature-merging step performed by `CpuFeatures::isa_builder`.

Part 2 models, from the specification, the region-runtime components
whose implementation is not part of this source tree (only the test
driver `src/lucet-runtime/tests/globals.rs` refers to them): the
eager and lazy region backends, `GuardedMemoryLayout`, `SlotPool`,
and `GlobalsTable`.
-/

/-- Individual CPU features that may be used during codegen.
Mirrors `enum SpecificFeature` in `cpu_features.rs`. -/
inductive SpecificFeature where
  | SSE3
  | SSSE3
  | SSE41
  | SSE42
  | Popcnt
  | AVX
  | BMI1
  | BMI2
  | Lzcnt
deriving DecidableEq, Repr

/-- x86 CPU families used as shorthand for different CPU feature
configurations. Mirrors `enum TargetCpu` in `cpu_features.rs`. -/
inductive TargetCpu where
  | Native
  | Baseline
  | Nehalem
  | Sandybridge
  | Haswell
  | Broadwell
  | Skylake
  | Cannonlake
  | Icelake
  | Znver1
deriving DecidableEq, Repr

open SpecificFeature in
/-- The `Nehalem` arm of `TargetCpu::features`. -/
def nehalemFeatures : List SpecificFeature :=
  [SSE3, SSSE3, SSE41, SSE42, Popcnt]

open SpecificFeature in
/-- The `Sandybridge` arm of `TargetCpu::features`:
`[Nehalem.features().as_slice(), &[AVX]].concat()`. -/
def sandybridgeFeatures : List SpecificFeature :=
  nehalemFeatures ++ [AVX]

open SpecificFeature in
/-- The `Haswell` arm of `TargetCpu::features`:
`[Sandybridge.features().as_slice(), &[BMI1, BMI2, Lzcnt]].concat()`. -/
def haswellFeatures : List SpecificFeature :=
  sandybridgeFeatures ++ [BMI1, BMI2, Lzcnt]

open SpecificFeature in
/-- `TargetCpu::features` from `cpu_features.rs`.  The `Broadwell`,
`Skylake`, `Cannonlake` and `Icelake` arms delegate down the chain to
the `Haswell` list, exactly as the source does. -/
def TargetCpu.features : TargetCpu → List SpecificFeature
  | .Native => []
  | .Baseline => []
  | .Nehalem => nehalemFeatures
  | .Sandybridge => sandybridgeFeatures
  | .Haswell => haswellFeatures
  | .Broadwell => haswellFeatures
  | .Skylake => haswellFeatures
  | .Cannonlake => haswellFeatures
  | .Icelake => haswellFeatures
  | .Znver1 => [SSE3, SSSE3, SSE41, SSE42, Popcnt, AVX, BMI1, BMI2, Lzcnt]

/-- An x86-specific configuration of CPU features, mirroring
`struct CpuFeatures`.  The `HashMap<SpecificFeature, bool>` is embedded
as a function `SpecificFeature → Option Bool` (present key ↦ `some`). -/
structure CpuFeatures where
  cpu : TargetCpu
  specific_features : SpecificFeature → Option Bool

/-- `CpuFeatures::set`: `self.specific_features.insert(sf, enabled)`. -/
def CpuFeatures.set (c : CpuFeatures) (sf : SpecificFeature) (enabled : Bool) :
    CpuFeatures :=
  { c with specific_features :=
      fun f => if f = sf then some enabled else c.specific_features f }

/-- `CpuFeatures::detect_cpuid`. -/
def CpuFeatures.detect_cpuid : CpuFeatures :=
  { cpu := .Native, specific_features := fun _ => none }

/-- `CpuFeatures::baseline`. -/
def CpuFeatures.baseline : CpuFeatures :=
  { cpu := .Baseline, specific_features := fun _ => none }

/-- One step of the profile-merging loop in `CpuFeatures::isa_builder`:
`specific_features.entry(cpu_feature).or_insert(true)`. -/
def orInsertTrue (m : SpecificFeature → Option Bool) (f : SpecificFeature) :
    SpecificFeature → Option Bool :=
  fun g =>
    if g = f then
      match m f with
      | some b => some b
      | none => some true
    else m g

/-- The feature-flag assignment computed by `CpuFeatures::isa_builder`:
the cloned `specific_features` map after the loop
`for cpu_feature in self.cpu.features() { ... .or_insert(true) }`.
`some b` at feature `f` means the builder receives `set("has_f", b)`;
`none` means the flag is left at the builder default. -/
def CpuFeatures.isa_builder_flags (c : CpuFeatures) :
    SpecificFeature → Option Bool :=
  c.cpu.features.foldl orInsertTrue c.specific_features

theorem foldl_orInsertTrue (l : List SpecificFeature)
    (m : SpecificFeature → Option Bool) (g : SpecificFeature) :
    l.foldl orInsertTrue m g =
      match m g with
      | some b => some b
      | none => if g ∈ l then some true else none := by
  induction l generalizing m with
  | nil =>
    cases h : m g <;> simp [h]
  | cons a l ih =>
    rw [List.foldl_cons, ih]
    by_cases hg : g = a
    · subst hg
      cases h : m g <;> simp [orInsertTrue, h]
    · cases h : m g <;>
        simp [orInsertTrue, hg, h, List.mem_cons]

/-- C10: `TargetCpu::features` is monotone along the CPU family ladder
and stabilizes: `Native` and `Baseline` are empty; Nehalem's list is a
prefix of Sandybridge's, which is a prefix of Haswell's; Broadwell,
Skylake, Cannonlake and Icelake equal Haswell; and Znver1 contains
exactly the features of Haswell. -/
theorem targetCpu_features_ladder :
    TargetCpu.features .Native = [] ∧
    TargetCpu.features .Baseline = [] ∧
    (∃ t, TargetCpu.features .Nehalem ++ t = TargetCpu.features .Sandybridge) ∧
    (∃ t, TargetCpu.features .Sandybridge ++ t = TargetCpu.features .Haswell) ∧
    TargetCpu.features .Broadwell = TargetCpu.features .Haswell ∧
    TargetCpu.features .Skylake = TargetCpu.features .Haswell ∧
    TargetCpu.features .Cannonlake = TargetCpu.features .Haswell ∧
    TargetCpu.features .Icelake = TargetCpu.features .Haswell ∧
    (∀ f, f ∈ TargetCpu.features .Znver1 ↔ f ∈ TargetCpu.features .Haswell) := by
  refine ⟨rfl, rfl, ⟨[.AVX], rfl⟩, ⟨[.BMI1, .BMI2, .Lzcnt], rfl⟩,
    rfl, rfl, rfl, rfl, ?_⟩
  intro f
  cases f <;> decide

/-- C9: in `isa_builder`, explicitly recorded feature settings take
precedence over the base CPU profile: a feature present in
`specific_features` keeps its recorded value; a feature implied by the
profile is enabled only when not explicitly specified; a feature in
neither place is left untouched; and `set(f, false)` leaves `f`
disabled even when the profile includes `f`. -/
theorem isa_builder_explicit_precedence (c : CpuFeatures) (f : SpecificFeature) :
    (∀ b, c.specific_features f = some b → c.isa_builder_flags f = some b) ∧
    (c.specific_features f = none → f ∈ c.cpu.features →
      c.isa_builder_flags f = some true) ∧
    (c.specific_features f = none → f ∉ c.cpu.features →
      c.isa_builder_flags f = none) ∧
    (c.set f false).isa_builder_flags f = some false := by
  refine ⟨?_, ?_, ?_, ?_⟩
  · intro b hb
    rw [CpuFeatures.isa_builder_flags, foldl_orInsertTrue, hb]
  · intro hnone hmem
    rw [CpuFeatures.isa_builder_flags, foldl_orInsertTrue, hnone]
    simp [hmem]
  · intro hnone hmem
    rw [CpuFeatures.isa_builder_flags, foldl_orInsertTrue, hnone]
    simp [hmem]
  · rw [CpuFeatures.isa_builder_flags, foldl_orInsertTrue]
    simp [CpuFeatures.set]

/-- Witness for C9 at a concrete input: on the Haswell profile with no
explicit settings, AVX is enabled by the profile, while `set(AVX, false)`
keeps AVX disabled. -/
theorem isa_builder_explicit_precedence_witness :
    (CpuFeatures.mk .Haswell (fun _ => none)).isa_builder_flags .AVX = some true ∧
    ((CpuFeatures.mk .Haswell (fun _ => none)).set .AVX false).isa_builder_flags
      .AVX = some false :=
  ⟨(isa_builder_explicit_precedence (CpuFeatures.mk .Haswell (fun _ => none))
      .AVX).2.1 rfl (by decide),
   (isa_builder_explicit_precedence (CpuFeatures.mk .Haswell (fun _ => none))
      .AVX).2.2.2⟩

/-- Errors of the globals accessors. Modelled from the spec:
`IndexError` from §4.5. -/
inductive GlobalsError where
  | indexError
deriving DecidableEq, Repr

/-- Modelled from the spec: `GlobalsTable` (§3, §4.5) — the runtime
implementation (`lucet_runtime`'s globals storage exercised by
`globals_tests!` in `src/lucet-runtime/tests/globals.rs`) is not part
of this source tree.  An ordered sequence of word values of fixed
length, together with the module's declared initial values. -/
structure GlobalsTable where
  initial_values : List Int
  values : List Int

/-- Modelled from the spec: table creation — length fixed at
instance-creation time from the module descriptor, seeded with the
declared initial values. -/
def GlobalsTable.create (inits : List Int) : GlobalsTable :=
  { initial_values := inits, values := inits }

/-- Modelled from the spec: `get(index) -> value | IndexError`,
bounds-checked against the module's declared global count. -/
def GlobalsTable.get (t : GlobalsTable) (i : Nat) : Except GlobalsError Int :=
  if i < t.values.length then .ok (t.values.getD i 0) else .error .indexError

/-- Modelled from the spec: `set(index, value) -> () | IndexError`,
bounds-checked against the module's declared global count. -/
def GlobalsTable.set (t : GlobalsTable) (i : Nat) (v : Int) :
    Except GlobalsError GlobalsTable :=
  if i < t.values.length then
    .ok { t with values := t.values.set i v }
  else .error .indexError

/-- Modelled from the spec: `reset_to_initial()` restores the declared
initial values; the count is fixed, no implicit growth. -/
def GlobalsTable.reset_to_initial (t : GlobalsTable) : GlobalsTable :=
  { t with values := t.initial_values }

/-- C3: for every table and every index strictly below the declared
global count, `set(i, v)` succeeds and a following `get(i)` returns
exactly `v`. -/
theorem globals_set_get_roundtrip (t : GlobalsTable) (i : Nat) (v : Int)
    (hi : i < t.values.length) :
    ∃ t', t.set i v = .ok t' ∧ t'.get i = .ok v := by
  refine ⟨{ t with values := t.values.set i v }, ?_, ?_⟩
  · rw [GlobalsTable.set, if_pos hi]
  · rw [GlobalsTable.get]
    rw [if_pos (by simpa using hi)]
    simp [List.getD_eq_getElem?_getD, List.getElem?_set_self hi]

/-- Witness for C3: on a two-global table, setting index 1 to 7 and
reading it back yields 7. -/
theorem globals_set_get_roundtrip_witness :
    ∃ t', (GlobalsTable.create [0, 1]).set 1 7 = .ok t' ∧ t'.get 1 = .ok 7 :=
  globals_set_get_roundtrip (GlobalsTable.create [0, 1]) 1 7 (by decide)

/-- C4: for every table and every index at or beyond the declared
global count, both `get` and `set` fail with `IndexError`; `set`
returns no updated table, so the table's contents are unchanged. -/
theorem globals_out_of_range_index_error (t : GlobalsTable) (i : Nat) (v : Int)
    (hi : t.values.length ≤ i) :
    t.get i = .error .indexError ∧ t.set i v = .error .indexError := by
  constructor
  · rw [GlobalsTable.get, if_neg (by omega)]
  · rw [GlobalsTable.set, if_neg (by omega)]

/-- Witness for C4: on a two-global table, index 2 is rejected by both
accessors. -/
theorem globals_out_of_range_index_error_witness :
    (GlobalsTable.create [0, 1]).get 2 = .error .indexError ∧
    (GlobalsTable.create [0, 1]).set 2 7 = .error .indexError :=
  globals_out_of_range_index_error (GlobalsTable.create [0, 1]) 2 7 (by decide)

/-- C5: after `reset_to_initial`, reading any valid global index
returns the module's declared initial value, regardless of the values
held before the reset. -/
theorem globals_reset_restores_initial (t : GlobalsTable) (i : Nat)
    (hi : i < t.initial_values.length) :
    t.reset_to_initial.get i = .ok (t.initial_values.getD i 0) := by
  rw [GlobalsTable.reset_to_initial, GlobalsTable.get]
  rw [if_pos (by simpa using hi)]

/-- Witness for C5: a table declared with initial values `[42, 5]` but
currently holding `[9, 9]` reads back 42 at index 0 after reset. -/
theorem globals_reset_restores_initial_witness :
    (GlobalsTable.mk [42, 5] [9, 9]).reset_to_initial.get 0 = .ok 42 :=
  globals_reset_restores_initial (GlobalsTable.mk [42, 5] [9, 9]) 0 (by decide)

/-- Modelled from the spec: `LayoutError` (§7) — malformed or
over-limit size parameters. -/
inductive LayoutError where
  | misaligned
  | overAddressableLimit
  | overCapacity
deriving DecidableEq, Repr

/-- Modelled from the spec: the inputs of the `GuardedMemoryLayout`
contract (§4.1): heap initial size, heap max size, stack size, globals
count, page size, guard size. -/
structure LayoutInput where
  heap_initial_size : Nat
  heap_max_size : Nat
  stack_size : Nat
  globals_count : Nat
  page_size : Nat
  guard_size : Nat
deriving DecidableEq, Repr

/-- Modelled from the spec: a computed `GuardedMemoryLayout` (§3) —
offsets for heap base, guard start and length, stack base, globals
offset, derived and read-only once computed.  Globals occupy one
8-byte word per declared global. -/
structure GuardedMemoryLayout where
  heap_base : Nat
  guard_start : Nat
  guard_length : Nat
  stack_base : Nat
  globals_offset : Nat
  total_size : Nat
deriving DecidableEq, Repr

/-- Total bytes occupied by a layout request: heap max, guard, stack,
and one word per global. -/
def layoutTotal (inp : LayoutInput) : Nat :=
  inp.heap_max_size + inp.guard_size + inp.stack_size + inp.globals_count * 8

/-- Whether every requested size is page-aligned. -/
def layoutAligned (inp : LayoutInput) : Prop :=
  inp.heap_initial_size % inp.page_size = 0 ∧
  inp.heap_max_size % inp.page_size = 0 ∧
  inp.stack_size % inp.page_size = 0 ∧
  inp.guard_size % inp.page_size = 0

instance (inp : LayoutInput) : Decidable (layoutAligned inp) := by
  unfold layoutAligned; infer_instance

/-- Modelled from the spec: the `GuardedMemoryLayout` layout
computation (§4.1) — given the input sizes, the platform's addressable
sandbox limit and the configured slot capacity class, produce a fixed
layout or fail with `LayoutError` when some requested size is not
page-aligned, the heap max size exceeds the addressable limit, or the
total exceeds the capacity class.  A pure function. -/
def computeLayout (addressable_limit capacity : Nat) (inp : LayoutInput) :
    Except LayoutError GuardedMemoryLayout :=
  if ¬layoutAligned inp then .error .misaligned
  else if addressable_limit < inp.heap_max_size then
    .error .overAddressableLimit
  else if capacity < layoutTotal inp then .error .overCapacity
  else
    .ok { heap_base := 0
          guard_start := inp.heap_max_size
          guard_length := inp.guard_size
          stack_base := inp.heap_max_size + inp.guard_size
          globals_offset := inp.heap_max_size + inp.guard_size + inp.stack_size
          total_size := layoutTotal inp }

/-- Whether a layout computation failed. -/
def layoutFailed (r : Except LayoutError GuardedMemoryLayout) : Bool :=
  match r with
  | .error _ => true
  | .ok _ => false

/-- C7: the layout computation fails exactly when some requested size
is not page-aligned, or the heap max size exceeds the platform's
addressable sandbox limit, or the total exceeds the configured slot
capacity class; otherwise it produces a fixed layout; and, being a
pure function, two calls on identical inputs yield identical
results. -/
theorem computeLayout_error_characterization (addressable_limit capacity : Nat)
    (inp : LayoutInput) :
    (layoutFailed (computeLayout addressable_limit capacity inp) = true ↔
      (¬layoutAligned inp ∨ addressable_limit < inp.heap_max_size ∨
        capacity < layoutTotal inp)) ∧
    (layoutFailed (computeLayout addressable_limit capacity inp) = false →
      computeLayout addressable_limit capacity inp =
        .ok { heap_base := 0
              guard_start := inp.heap_max_size
              guard_length := inp.guard_size
              stack_base := inp.heap_max_size + inp.guard_size
              globals_offset :=
                inp.heap_max_size + inp.guard_size + inp.stack_size
              total_size := layoutTotal inp }) ∧
    computeLayout addressable_limit capacity inp =
      computeLayout addressable_limit capacity inp := by
  refine ⟨?_, ?_, rfl⟩
  · rw [computeLayout]
    by_cases h1 : layoutAligned inp
    · by_cases h2 : addressable_limit < inp.heap_max_size
      · simp [h1, h2, layoutFailed]
      · by_cases h3 : capacity < layoutTotal inp <;>
          simp [h1, h2, h3, layoutFailed]
    · simp [h1, layoutFailed]
  · intro hok
    rw [computeLayout] at hok ⊢
    by_cases h1 : layoutAligned inp
    · by_cases h2 : addressable_limit < inp.heap_max_size
      · simp [h1, h2, layoutFailed] at hok
      · by_cases h3 : capacity < layoutTotal inp
        · simp [h1, h2, h3, layoutFailed] at hok
        · simp [h1, h2, h3]
    · simp [h1, layoutFailed] at hok

/-- Witness for C7: a 64 KiB heap with 4 KiB pages, a 4 KiB stack, one
global, and a 4 KiB guard fits a 1 MiB capacity class and succeeds;
the same request with page size 4096 and a misaligned stack of 100
bytes fails. -/
theorem computeLayout_error_characterization_witness :
    layoutFailed (computeLayout 4294967296 1048576
      (LayoutInput.mk 65536 65536 4096 1 4096 4096)) = false ∧
    computeLayout 4294967296 1048576
        (LayoutInput.mk 65536 65536 4096 1 4096 4096) =
      .ok (GuardedMemoryLayout.mk 0 65536 4096 69632 73728 73736) ∧
    layoutFailed (computeLayout 4294967296 1048576
      (LayoutInput.mk 65536 65536 100 1 4096 4096)) = true := by
  refine ⟨by decide, ?_, ?_⟩
  · exact (computeLayout_error_characterization 4294967296 1048576
      (LayoutInput.mk 65536 65536 4096 1 4096 4096)).2.1 (by decide)
  · exact (computeLayout_error_characterization 4294967296 1048576
      (LayoutInput.mk 65536 65536 100 1 4096 4096)).1.mpr
      (Or.inl (by decide))

/-- Modelled from the spec: slot states (§3): Free, Allocated, and
Faulted (lazy backend only). -/
inductive SlotState where
  | Free
  | Allocated
  | Faulted
deriving DecidableEq, Repr

/-- Modelled from the spec: a pool slot (§3, §4.4) — a fixed
address-space range referenced by a stable identifier, of one capacity
class, in one of the slot states. -/
structure PoolSlot where
  slot_id : Nat
  capacity_class : Nat
  state : SlotState
deriving DecidableEq, Repr

/-- Whether a slot is Free and of the requested capacity class. -/
def PoolSlot.freeOf (s : PoolSlot) (cls : Nat) : Bool :=
  s.capacity_class == cls && s.state == .Free

/-- Modelled from the spec: `SlotPool` (§4.4) — a bounded pool of
reusable slots with a configured growth ceiling. -/
structure SlotPool where
  slots : List PoolSlot
  ceiling : Nat
deriving DecidableEq, Repr

/-- Error of `SlotPool.acquire`. Modelled from the spec: `OutOfSlots`
(§7). -/
inductive PoolError where
  | outOfSlots
deriving DecidableEq, Repr

/-- Take the first Free slot of the requested class out of the list,
marking it Allocated; `none` when no such slot exists. -/
def takeFree (cls : Nat) : List PoolSlot → Option (PoolSlot × List PoolSlot)
  | [] => none
  | s :: rest =>
    if s.freeOf cls then
      some ({ s with state := .Allocated },
            { s with state := .Allocated } :: rest)
    else
      (takeFree cls rest).map (fun tr => (tr.1, s :: tr.2))

/-- Modelled from the spec: `acquire(capacity_class) -> Slot | OutOfSlots`
(§4.4) — takes a Free slot of the matching class if available, else
grows the pool up to the configured ceiling, else fails. -/
def SlotPool.acquire (p : SlotPool) (cls : Nat) :
    Except PoolError (PoolSlot × SlotPool) :=
  match takeFree cls p.slots with
  | some (s, slots') => .ok (s, { p with slots := slots' })
  | none =>
    if p.slots.length < p.ceiling then
      let s : PoolSlot :=
        { slot_id := p.slots.length, capacity_class := cls, state := .Allocated }
      .ok (s, { p with slots := p.slots ++ [s] })
    else .error .outOfSlots

theorem takeFree_eq_none_iff (cls : Nat) (l : List PoolSlot) :
    takeFree cls l = none ↔ ∀ s ∈ l, s.freeOf cls = false := by
  induction l with
  | nil => simp [takeFree]
  | cons a l ih =>
    by_cases ha : a.freeOf cls = true
    · simp [takeFree, ha]
    · rw [Bool.not_eq_true] at ha
      simp [takeFree, ha, ih, List.forall_mem_cons]

theorem takeFree_some_props (cls : Nat) (l : List PoolSlot) (t : PoolSlot)
    (rest : List PoolSlot) (h : takeFree cls l = some (t, rest)) :
    t.capacity_class = cls ∧ t.state = .Allocated ∧ rest.length = l.length := by
  induction l generalizing rest with
  | nil => cases h
  | cons a l ih =>
    by_cases ha : a.freeOf cls = true
    · rw [takeFree, if_pos ha] at h
      have hfree := ha
      simp only [PoolSlot.freeOf, Bool.and_eq_true, beq_iff_eq] at hfree
      injection h with h
      obtain ⟨h1, h2⟩ := Prod.mk.injEq .. ▸ h
      refine ⟨?_, ?_, ?_⟩
      · rw [← h1]; exact hfree.1
      · rw [← h1]
      · rw [← h2]; simp
    · rw [Bool.not_eq_true] at ha
      rw [takeFree, ha] at h
      simp only [Bool.false_eq_true, if_false, Option.map_eq_some'] at h
      obtain ⟨⟨t', rest'⟩, hrec, heq⟩ := h
      obtain ⟨h1, h2⟩ := Prod.mk.injEq .. ▸ heq
      obtain ⟨hc, hs, hl⟩ := ih rest' (h1 ▸ hrec)
      refine ⟨hc, hs, ?_⟩
      rw [← h2]
      simp [hl]

/-- C8: `acquire(capacity_class)` returns a Free slot of the matching
class when one is available (handed out as Allocated, the pool keeping
its size); when none is available and the pool is below its ceiling it
grows by one new slot of that class and returns it; and it fails with
`OutOfSlots` exactly when no Free slot of the class exists and the
pool cannot grow further. -/
theorem slotPool_acquire_spec (p : SlotPool) (cls : Nat) :
    ((∃ s ∈ p.slots, s.freeOf cls = true) →
      ∃ s' p', p.acquire cls = .ok (s', p') ∧ s'.capacity_class = cls ∧
        s'.state = .Allocated ∧ p'.slots.length = p.slots.length) ∧
    ((∀ s ∈ p.slots, s.freeOf cls = false) → p.slots.length < p.ceiling →
      p.acquire cls = .ok
        ({ slot_id := p.slots.length, capacity_class := cls,
           state := .Allocated },
         { p with slots := p.slots ++
             [{ slot_id := p.slots.length, capacity_class := cls,
                state := .Allocated }] })) ∧
    (p.acquire cls = .error .outOfSlots ↔
      ((∀ s ∈ p.slots, s.freeOf cls = false) ∧ p.ceiling ≤ p.slots.length)) := by
  refine ⟨?_, ?_, ?_⟩
  · intro hex
    cases h : takeFree cls p.slots with
    | none =>
      obtain ⟨s, hs, hfree⟩ := hex
      rw [(takeFree_eq_none_iff cls p.slots).mp h s hs] at hfree
      cases hfree
    | some r =>
      obtain ⟨t, rest⟩ := r
      obtain ⟨hcls, halloc, hlen⟩ := takeFree_some_props cls p.slots t rest h
      exact ⟨t, { p with slots := rest }, by rw [SlotPool.acquire, h],
        hcls, halloc, hlen⟩
  · intro hnone hgrow
    rw [SlotPool.acquire, (takeFree_eq_none_iff cls p.slots).mpr hnone,
      if_pos hgrow]
  · constructor
    · intro herr
      rw [SlotPool.acquire] at herr
      cases h : takeFree cls p.slots with
      | some r =>
        obtain ⟨t, rest⟩ := r
        rw [h] at herr
        cases herr
      | none =>
        rw [h] at herr
        by_cases hlt : p.slots.length < p.ceiling
        · rw [if_pos hlt] at herr; cases herr
        · exact ⟨(takeFree_eq_none_iff cls p.slots).mp h, Nat.le_of_not_lt hlt⟩
    · intro hand
      rw [SlotPool.acquire, (takeFree_eq_none_iff cls p.slots).mpr hand.1,
        if_neg (Nat.not_lt_of_le hand.2)]

/-- Witness for C8: a pool at its ceiling of 1 whose only slot is
Allocated fails with `OutOfSlots`; a pool with one Free slot of class 2
hands that slot out without growing. -/
theorem slotPool_acquire_spec_witness :
    (SlotPool.mk [PoolSlot.mk 0 2 .Allocated] 1).acquire 2 =
      .error .outOfSlots ∧
    (∃ s' p', (SlotPool.mk [PoolSlot.mk 0 2 .Free] 1).acquire 2 =
      .ok (s', p') ∧ s'.capacity_class = 2 ∧ s'.state = .Allocated ∧
      p'.slots.length = (SlotPool.mk [PoolSlot.mk 0 2 .Free] 1).slots.length) :=
  ⟨((slotPool_acquire_spec (SlotPool.mk [PoolSlot.mk 0 2 .Allocated] 1) 2).2.2).mpr
      ⟨by decide, by decide⟩,
   (slotPool_acquire_spec (SlotPool.mk [PoolSlot.mk 0 2 .Free] 1) 2).1
      ⟨PoolSlot.mk 0 2 .Free, by decide, by decide⟩⟩

/-- Modelled from the spec: the compiled-module descriptor (§6) —
heap initial/max size, stack size, declared global initial values, and
the read-only initial-data image seeding heap memory. -/
structure ModuleDescriptor where
  heap_initial_size : Nat
  heap_max_size : Nat
  stack_size : Nat
  global_inits : List Int
  initial_data : List Nat
deriving DecidableEq, Repr

/-- Modelled from the spec: descriptor validity (§6) — sizes are
page-aligned, the image is no longer than the initial heap size, and
the initial heap size does not exceed the heap max. -/
def ModuleDescriptor.valid (ps : Nat) (m : ModuleDescriptor) : Prop :=
  0 < ps ∧
  m.initial_data.length ≤ m.heap_initial_size ∧
  m.heap_initial_size ≤ m.heap_max_size ∧
  m.heap_initial_size % ps = 0 ∧
  m.heap_max_size % ps = 0

instance (ps : Nat) (m : ModuleDescriptor) : Decidable (m.valid ps) := by
  unfold ModuleDescriptor.valid; infer_instance

/-- Outcome of a memory access that leaves the sandboxed heap: the
guard pages convert it into a hardware trap (§3, §7 `UnresolvedFault`). -/
inductive AccessFault where
  | outOfBoundsTrap
deriving DecidableEq, Repr

/-- The byte the initial-data image defines at an offset: the image
byte inside the image, zero beyond its extent (§6). -/
def imageByte (data : List Nat) (off : Nat) : Nat :=
  data.getD off 0

/-- Modelled from the spec: an instance of the eager (mmap) backend
(§4.2) — the heap is fully populated at creation. -/
structure EagerInstance where
  heap : List Nat
  globals : GlobalsTable

/-- Modelled from the spec: `EagerRegion::create_instance` (§4.2) —
zero-fills the heap, copies the initial-data image into it, writes the
initial globals. -/
def eager_create_instance (m : ModuleDescriptor) : EagerInstance :=
  { heap := m.initial_data ++
      List.replicate (m.heap_initial_size - m.initial_data.length) 0,
    globals := GlobalsTable.create m.global_inits }

/-- A heap byte read on the eager backend: in-bounds reads return the
resident byte; anything beyond the heap lands in the guard and
traps. -/
def EagerInstance.read (inst : EagerInstance) (off : Nat) :
    Except AccessFault Nat :=
  if off < inst.heap.length then .ok (inst.heap.getD off 0)
  else .error .outOfBoundsTrap

/-- Modelled from the spec: an instance of the lazy (fault-driven)
backend (§4.3) — the address range is reserved with no backing pages;
`committed` maps page indexes to their populated contents. -/
structure LazyInstance where
  page_size : Nat
  heap_size : Nat
  image : List Nat
  committed : List (Nat × List Nat)
  globals : GlobalsTable

/-- Modelled from the spec: `LazyFaultRegion::create_instance` (§4.3)
— reserves the range with no pages committed, records the image for
later lookup, writes globals eagerly. -/
def lazy_create_instance (ps : Nat) (m : ModuleDescriptor) : LazyInstance :=
  { page_size := ps,
    heap_size := m.heap_initial_size,
    image := m.initial_data,
    committed := [],
    globals := GlobalsTable.create m.global_inits }

/-- Modelled from the spec: fault resolution step (b) (§4.3) — the
page's bytes are copied from the initial-data image, zero-filled past
the image's extent. -/
def resolvePage (image : List Nat) (ps page : Nat) : List Nat :=
  (List.range ps).map (fun i => imageByte image (page * ps + i))

/-- A heap byte read on the lazy backend: an in-bounds read of a
committed page returns its resident byte; an in-bounds read of an
uncommitted page faults, the handler populates the page from the image
and the read resumes; a read beyond the heap lands in the guard and
traps unresolved. -/
def LazyInstance.read (st : LazyInstance) (off : Nat) :
    Except AccessFault (Nat × LazyInstance) :=
  if off < st.heap_size then
    let page := off / st.page_size
    match st.committed.lookup page with
    | some pg => .ok (pg.getD (off % st.page_size) 0, st)
    | none =>
      let pg := resolvePage st.image st.page_size page
      .ok (pg.getD (off % st.page_size) 0,
           { st with committed := (page, pg) :: st.committed })
  else .error .outOfBoundsTrap

theorem lazy_read_uncommitted (st : LazyInstance) (off : Nat)
    (hin : off < st.heap_size)
    (hnone : st.committed.lookup (off / st.page_size) = none) :
    st.read off = .ok
      ((resolvePage st.image st.page_size (off / st.page_size)).getD
          (off % st.page_size) 0,
        { st with committed :=
            (off / st.page_size,
              resolvePage st.image st.page_size (off / st.page_size)) ::
              st.committed }) := by
  rw [LazyInstance.read, if_pos hin]
  simp only [hnone]

theorem replicate_zero_getD (k j : Nat) :
    (List.replicate k (0 : Nat)).getD j 0 = 0 := by
  induction k generalizing j with
  | zero => simp
  | succ n ih =>
    cases j with
    | zero => simp [List.replicate]
    | succ j => simp only [List.replicate, List.getD_cons_succ]; exact ih j

theorem eager_heap_length (m : ModuleDescriptor)
    (h : m.initial_data.length ≤ m.heap_initial_size) :
    (eager_create_instance m).heap.length = m.heap_initial_size := by
  simp [eager_create_instance]
  omega

/-- C1: for every valid module descriptor, `create_instance` followed
immediately by reading any in-bounds heap byte returns exactly the
corresponding byte of the initial-data image (zero beyond the image's
length), and the eager and the lazy backend return the identical
byte. -/
theorem create_read_backends_agree (ps : Nat) (m : ModuleDescriptor) (off : Nat)
    (hv : m.valid ps) (hoff : off < m.heap_initial_size) :
    (eager_create_instance m).read off = .ok (imageByte m.initial_data off) ∧
    (∃ st', (lazy_create_instance ps m).read off =
      .ok (imageByte m.initial_data off, st')) := by
  obtain ⟨hps, hdata, hinit, -, -⟩ := hv
  constructor
  · rw [EagerInstance.read,
      if_pos (by rw [eager_heap_length m hdata]; exact hoff)]
    by_cases hlt : off < m.initial_data.length
    · rw [eager_create_instance]
      simp only
      rw [List.getD_append _ _ _ _ hlt, imageByte]
    · rw [eager_create_instance]
      simp only
      rw [List.getD_append_right _ _ _ _ (Nat.le_of_not_lt hlt),
        replicate_zero_getD, imageByte,
        List.getD_eq_getElem?_getD,
        List.getElem?_eq_none (Nat.le_of_not_lt hlt)]
      rfl
  · have hmod : off % ps < ps := Nat.mod_lt off hps
    have hpage : (off / ps) * ps + off % ps = off := by
      rw [Nat.mul_comm]
      exact Nat.div_add_mod off ps
    have hpg : (resolvePage m.initial_data ps (off / ps)).getD (off % ps) 0 =
        imageByte m.initial_data off := by
      rw [resolvePage, List.getD_eq_getElem?_getD, List.getElem?_map,
        List.getElem?_range hmod]
      simp [hpage]
    refine ⟨{ page_size := ps, heap_size := m.heap_initial_size,
              image := m.initial_data,
              committed :=
                [(off / ps, resolvePage m.initial_data ps (off / ps))],
              globals := GlobalsTable.create m.global_inits }, ?_⟩
    rw [lazy_read_uncommitted (lazy_create_instance ps m) off hoff rfl]
    simp only [lazy_create_instance]
    rw [hpg]

/-- Witness for C1: the spec's scenario (§8) — heap 65536 bytes, image
`[1,2,3,4]`, one global 42 — at offset 2 both backends read back 3. -/
theorem create_read_backends_agree_witness :
    (eager_create_instance
        (ModuleDescriptor.mk 65536 65536 4096 [42] [1, 2, 3, 4])).read 2 =
      .ok (imageByte [1, 2, 3, 4] 2) ∧
    (∃ st', (lazy_create_instance 4096
        (ModuleDescriptor.mk 65536 65536 4096 [42] [1, 2, 3, 4])).read 2 =
      .ok (imageByte [1, 2, 3, 4] 2, st')) :=
  create_read_backends_agree 4096
    (ModuleDescriptor.mk 65536 65536 4096 [42] [1, 2, 3, 4]) 2
    (by decide) (by decide)

/-- C2: on every instance of either backend made from a valid
descriptor, an access at heap-max offset + 1 or any greater offset
traps with an out-of-bounds fault instead of returning data, and the
error return carries no heap modification. -/
theorem beyond_heap_max_traps (ps : Nat) (m : ModuleDescriptor) (off : Nat)
    (hv : m.valid ps) (hoff : m.heap_max_size + 1 ≤ off) :
    (eager_create_instance m).read off = .error .outOfBoundsTrap ∧
    (lazy_create_instance ps m).read off = .error .outOfBoundsTrap := by
  obtain ⟨-, hdata, hinit, -, -⟩ := hv
  constructor
  · rw [EagerInstance.read,
      if_neg (by rw [eager_heap_length m hdata]; omega)]
  · rw [LazyInstance.read,
      if_neg (by rw [lazy_create_instance]; simp only; omega)]

/-- Witness for C2: on the spec's 65536-byte-heap scenario, offset
65537 traps on both backends. -/
theorem beyond_heap_max_traps_witness :
    (eager_create_instance
        (ModuleDescriptor.mk 65536 65536 4096 [42] [1, 2, 3, 4])).read 65537 =
      .error .outOfBoundsTrap ∧
    (lazy_create_instance 4096
        (ModuleDescriptor.mk 65536 65536 4096 [42] [1, 2, 3, 4])).read 65537 =
      .error .outOfBoundsTrap :=
  beyond_heap_max_traps 4096
    (ModuleDescriptor.mk 65536 65536 4096 [42] [1, 2, 3, 4]) 65537
    (by decide) (by decide)

/-- Modelled from the spec: the wipe performed by `destroy_instance`
before `release(slot)` marks the slot Free (§4.2, §4.4) — the slot's
memory is neutralized; release never accepts a slot whose contents
have not been neutralized. -/
def destroy_wipe (mem : List Nat) : List Nat :=
  List.replicate mem.length 0

/-- C6: destroying instance A and creating B in the same capacity
class never exposes a byte written by A: the wiped slot contents are
independent of whatever A wrote (any two same-sized contents wipe to
the same memory), and every byte B can observe before its own
initialization writes it is zero. -/
theorem slot_reuse_no_leak (memA memA' : List Nat)
    (hlen : memA.length = memA'.length) :
    destroy_wipe memA = destroy_wipe memA' ∧
    ∀ i, (destroy_wipe memA).getD i 0 = 0 := by
  constructor
  · rw [destroy_wipe, destroy_wipe, hlen]
  · intro i
    rw [destroy_wipe]
    exact replicate_zero_getD memA.length i

/-- Witness for C6: two different 3-byte contents wipe identically,
and the wiped slot reads zero at offset 1. -/
theorem slot_reuse_no_leak_witness :
    destroy_wipe [7, 8, 9] = destroy_wipe [1, 2, 3] ∧
    ∀ i, (destroy_wipe [7, 8, 9]).getD i 0 = 0 :=
  slot_reuse_no_leak [7, 8, 9] [1, 2, 3] (by decide)
